import Mathlib

/-
Verification of the payroll-generation and leave-balance core of the
odoo-gcet HR backend (src/server/main.py), shallowly embedded in Lean.

Document-store values are modelled explicitly: monetary amounts are exact
rationals, Python `round(x, 2)` is round-half-to-even at two decimals,
Mongo documents become Lean structures, and the heterogeneous `salary`
field becomes an inductive value type.  Operations that can raise
HTTPException return `Except ApiError`; the per-employee try/except in the
generation loop becomes an `Option`-valued per-employee computation.
-/

namespace HRMS

/-- Calendar date; the code stores dates as zero-padded "YYYY-MM-DD"
strings and compares them with Mongo string comparison, which on
well-formed date strings is exactly lexicographic comparison of
(year, month, day). -/
structure Date where
  year : ℤ
  month : ℤ
  day : ℤ
deriving DecidableEq

def Date.leb (a b : Date) : Bool :=
  decide (a.year < b.year ∨ (a.year = b.year ∧
    (a.month < b.month ∨ (a.month = b.month ∧ a.day ≤ b.day))))

def Date.ltb (a b : Date) : Bool :=
  decide (a.year < b.year ∨ (a.year = b.year ∧
    (a.month < b.month ∨ (a.month = b.month ∧ a.day < b.day))))

/-- Heterogeneous stored value, as found in the `salary` field of an
employee document and the `workingHours` field of an attendance document:
a number, a JSON object (dict), or null/missing. -/
inductive Val where
  | num (q : ℚ)
  | vdict (fs : List (String × Val))
  | vnone

/-- Python truthiness for stored values: 0, the empty dict and None are
falsy. -/
def Val.truthy : Val → Bool
  | .num q => decide (q ≠ 0)
  | .vdict fs => !fs.isEmpty
  | .vnone => false

/-- Python `float(v)`: succeeds on numbers, raises TypeError on dicts and
None (modelled as `none`). -/
def Val.toNum : Val → Option ℚ
  | .num q => some q
  | .vdict _ => none
  | .vnone => none

/-- Python `a or b`. -/
def Val.pyOr (a b : Val) : Val := if a.truthy then a else b

/-- Python `d.get(k, dflt)` on a document field list. -/
def dictGet (fs : List (String × Val)) (k : String) (dflt : Val) : Val :=
  match fs.find? (fun p => p.1 == k) with
  | some p => p.2
  | none => dflt

/-- Python `sum(d.values())`: fails (TypeError) when any value is
non-numeric. -/
def sumVals : List (String × Val) → Option ℚ
  | [] => some 0
  | (_, v) :: rest => do
      let q ← v.toNum
      let r ← sumVals rest
      pure (q + r)

/-- The nested-component handling in generate_payroll (main.py 963-969):
`if isinstance(x, dict): x = sum(x.values()) if x else 0`. -/
def flattenComponent (v : Val) : Option Val :=
  match v with
  | .vdict fs => if fs.isEmpty then some (.num 0) else (sumVals fs).map Val.num
  | v => some v

/-- The final numeric coercion in generate_payroll (main.py 976-978):
`float(v) if v else 0`. -/
def coerceNum (v : Val) : Option ℚ :=
  if v.truthy then v.toNum else some 0

/-- Salary resolution of generate_payroll (main.py 951-978): turns the
stored salary value of any shape into (basic, allowances, deductions);
`none` models the per-employee exception path (the employee is skipped
by the batch loop). -/
def resolveSalary : Val → Option (ℚ × ℚ × ℚ)
  | .num q => some (q, 0, 0)
  | .vdict fs => do
      let b := Val.pyOr (Val.pyOr (Val.pyOr
        (dictGet fs "basicSalary" (.num 0))
        (dictGet fs "basic" (.num 0)))
        (dictGet fs "amount" (.num 0))) (.num 0)
      let al ← flattenComponent (dictGet fs "allowances" (.num 0))
      let de ← flattenComponent (dictGet fs "deductions" (.num 0))
      let bq ← coerceNum b
      let alq ← coerceNum al
      let deq ← coerceNum de
      pure (bq, alq, deq)
  | .vnone => some (0, 0, 0)

/-- Employee document, as written by create_employee (main.py 294-308). -/
structure Employee where
  employeeId : String
  firstName : String
  lastName : String
  department : String
  position : String
  status : String
  salary : Val

/-- Attendance document; `workingHours` is kept heterogeneous because the
generator reads it with `float(a.get("workingHours", 0) or 0)`. -/
structure AttendanceRecord where
  employeeId : String
  date : Date
  status : String
  workingHours : Val

/-- Payroll document, as written by generate_payroll (main.py 1009-1039)
and mutated by update_payroll.  The deductions sub-document is flattened
into dedStandard/dedAbsent/dedHalf/dedAdditional/dedTotal; `dedAdditional`
is absent (`none`) until update_payroll first sets it.  Timestamps are
abstract integers supplied by the caller. -/
structure PayrollRecord where
  pid : ℕ
  employeeId : String
  employeeName : String
  department : String
  position : String
  month : ℤ
  year : ℤ
  basicSalary : ℚ
  allowances : ℚ
  grossSalary : ℚ
  dedStandard : ℚ
  dedAbsent : ℚ
  dedHalf : ℚ
  dedAdditional : Option ℚ
  dedTotal : ℚ
  netSalary : ℚ
  workingDays : ℕ
  presentDays : ℕ
  halfDays : ℕ
  absentDays : ℕ
  totalHours : ℚ
  bonus : ℚ
  status : String
  generatedBy : String
  generatedAt : ℤ
  paidBy : Option String
  paidAt : Option ℤ
  updatedBy : Option String
  updatedAt : Option ℤ
  remarks : Option String
deriving DecidableEq

/-- Leave type document (create_leave_type / seed_leave_types). -/
structure LeaveType where
  ltid : ℕ
  name : String
  code : String
  totalDays : ℤ
  carryForward : Bool
  maxCarryForward : ℤ
  isPaid : Bool
  isActive : Bool
deriving DecidableEq

/-- Leave request document; `leaveType` references a leave type by name. -/
structure LeaveRequest where
  employeeId : String
  leaveType : String
  startDate : Date
  endDate : Date
  days : ℤ
  status : String
deriving DecidableEq

/-- The document store (the Mongo database).  `nextPid` models ObjectId
allocation for newly inserted payroll records. -/
structure Store where
  employees : List Employee
  attendance : List AttendanceRecord
  payroll : List PayrollRecord
  leavetypes : List LeaveType
  leaverequests : List LeaveRequest
  nextPid : ℕ

/-- HTTPException: status code and detail message. -/
structure ApiError where
  status : ℕ
  detail : String
deriving DecidableEq

/-- Response of generate_payroll (main.py 1049-1055). -/
structure GenResult where
  generated : ℕ
  skipped : ℕ
  records : List PayrollRecord
deriving DecidableEq

/-- Python `round(q)` to an integer: round half to even. -/
def pyRoundInt (q : ℚ) : ℤ :=
  let f := Int.fdiv q.num (q.den : ℤ)
  if q - (f : ℚ) < 1 / 2 then f
  else if (1 : ℚ) / 2 < q - (f : ℚ) then f + 1
  else if f % 2 = 0 then f else f + 1

/-- Python `round(q, 2)`. -/
def round2 (q : ℚ) : ℚ := (pyRoundInt (q * 100) : ℚ) / 100

/-- First day of the pay period: the "YYYY-MM-01" string (main.py 981). -/
def monthStart (m y : ℤ) : Date := ⟨y, m, 1⟩

/-- Exclusive upper bound of the pay period, rolling over the year for
December (main.py 982-985). -/
def monthEnd (m y : ℤ) : Date := if m = 12 then ⟨y + 1, 1, 1⟩ else ⟨y, m + 1, 1⟩

/-- Attendance query of generate_payroll (main.py 987-990): employee's
records with monthStart <= date < monthEnd. -/
def attInRange (m y : ℤ) (eid : String) (att : List AttendanceRecord) : List AttendanceRecord :=
  att.filter (fun a => a.employeeId == eid && (monthStart m y).leb a.date && a.date.ltb (monthEnd m y))

/-- Total working hours (main.py 996): `sum(float(a.get("workingHours", 0) or 0))`;
fails when some record holds a truthy non-numeric value. -/
def totalHoursSum : List AttendanceRecord → Option ℚ
  | [] => some 0
  | a :: rest => do
      let h ← coerceNum a.workingHours
      let r ← totalHoursSum rest
      pure (h + r)

/-- The per-employee body of the generation loop (main.py 951-1039), after
the existence check: salary resolution, attendance aggregation, deduction
computation and construction of the new payroll document.  `none` models
the caught per-employee exception (main.py 1045-1047). -/
def computeEmp (m y : ℤ) (actor : String) (now : ℤ) (att : List AttendanceRecord)
    (e : Employee) (pid : ℕ) : Option PayrollRecord :=
  match resolveSalary e.salary with
  | none => none
  | some (b, al, de) =>
    let recs := attInRange m y e.employeeId att
    match totalHoursSum recs with
    | none => none
    | some th =>
      let presentDays := recs.countP (fun a => a.status == "present")
      let halfDays := recs.countP (fun a => a.status == "half-day")
      let absentDays := recs.countP (fun a => a.status == "absent")
      let gross := b + al
      let perDay := if 0 < b then b / 30 else 0
      let absentDed := (absentDays : ℚ) * perDay
      let halfDed := (halfDays : ℚ) * (perDay / 2)
      let totalDed := de + absentDed + halfDed
      some {
        pid := pid
        employeeId := e.employeeId
        employeeName := e.firstName ++ " " ++ e.lastName
        department := e.department
        position := e.position
        month := m
        year := y
        basicSalary := b
        allowances := al
        grossSalary := gross
        dedStandard := de
        dedAbsent := round2 absentDed
        dedHalf := round2 halfDed
        dedAdditional := none
        dedTotal := round2 totalDed
        netSalary := round2 (gross - totalDed)
        workingDays := recs.length
        presentDays := presentDays
        halfDays := halfDays
        absentDays := absentDays
        totalHours := round2 th
        bonus := 0
        status := "generated"
        generatedBy := actor
        generatedAt := now
        paidBy := none
        paidAt := none
        updatedBy := none
        updatedAt := none
        remarks := none }

/-- Employee query of generate_payroll (main.py 921-927): active, outside
Human Resources, and - only when a non-empty id list was supplied, since
`if request.employeeIds:` is false for the empty list - restricted to the
supplied ids. -/
def eligibleB (ids : Option (List String)) (e : Employee) : Bool :=
  e.department != "Human Resources" && e.status == "active" &&
    (match ids with
     | some l => l.isEmpty || l.contains e.employeeId
     | none => true)

/-- Existence-check filter (main.py 941-945). -/
def matchesPeriod (eid : String) (m y : ℤ) (p : PayrollRecord) : Bool :=
  p.employeeId == eid && p.month == m && p.year == y

/-- Whether the payroll collection already holds a record for the
employee and period. -/
def coveredb (e : Employee) (m y : ℤ) (db : List PayrollRecord) : Bool :=
  (db.find? (matchesPeriod e.employeeId m y)).isSome

/-- Accumulator of the generation loop: counters, response records, the
current payroll collection, and the ObjectId allocator. -/
structure GenAcc where
  generated : ℕ
  skipped : ℕ
  records : List PayrollRecord
  payrollDb : List PayrollRecord
  nextPid : ℕ

/-- One iteration of the generation loop (main.py 938-1047). -/
def genStep (m y : ℤ) (actor : String) (now : ℤ) (att : List AttendanceRecord)
    (acc : GenAcc) (e : Employee) : GenAcc :=
  if coveredb e m y acc.payrollDb then
    { acc with skipped := acc.skipped + 1 }
  else
    match computeEmp m y actor now att e acc.nextPid with
    | some r => { acc with
        generated := acc.generated + 1
        records := acc.records ++ [r]
        payrollDb := acc.payrollDb ++ [r]
        nextPid := acc.nextPid + 1 }
    | none => acc

/-- The generation loop. -/
def processEmployees (m y : ℤ) (actor : String) (now : ℤ) (att : List AttendanceRecord) :
    List Employee → GenAcc → GenAcc
  | [], acc => acc
  | e :: es, acc => processEmployees m y actor now att es (genStep m y actor now att acc e)

/-- generate_payroll (main.py 908-1062): validation, employee selection,
and the per-employee generation loop. -/
def generate_payroll (m y : ℤ) (ids : Option (List String)) (actor : String) (now : ℤ)
    (s : Store) : Except ApiError (GenResult × Store) :=
  if m < 1 ∨ 12 < m then .error ⟨400, "Invalid month"⟩
  else if y < 2020 ∨ 2030 < y then .error ⟨400, "Invalid year"⟩
  else
    let emps := s.employees.filter (eligibleB ids)
    if emps.isEmpty then .error ⟨404, "No employees found"⟩
    else
      let out := processEmployees m y actor now s.attendance emps ⟨0, 0, [], s.payroll, s.nextPid⟩
      .ok (⟨out.generated, out.skipped, out.records⟩,
           { s with payroll := out.payrollDb, nextPid := out.nextPid })

/-- db.payroll.find_one by id. -/
def findPayroll (s : Store) (pid : ℕ) : Option PayrollRecord :=
  s.payroll.find? (fun p => p.pid == pid)

/-- db.payroll.update_one by id: replace the first matching document. -/
def replacePayroll : List PayrollRecord → ℕ → PayrollRecord → List PayrollRecord
  | [], _, _ => []
  | p :: ps, pid, r => if p.pid == pid then r :: ps else p :: replacePayroll ps pid r

/-- update_payroll (main.py 1139-1193): partial update of an existing
payroll record.  Every recomputation reads `ex`, the record as persisted
before this call, exactly as the code reads `existing`; when both bonus
and deductions are supplied the deductions branch overwrites the
bonus-based netSalary recomputation. -/
def update_payroll (pid : ℕ) (bonus deductions : Option ℚ) (status remarks : Option String)
    (actor : String) (now : ℤ) (s : Store) : Except ApiError Store :=
  match findPayroll s pid with
  | none => .error ⟨404, "Payroll record not found"⟩
  | some ex =>
    if bonus.isNone && deductions.isNone && status.isNone && remarks.isNone then
      .error ⟨400, "No fields to update"⟩
    else
      let r1 := match bonus with
        | some b => { ex with bonus := b, netSalary := ex.netSalary - ex.bonus + b }
        | none => ex
      let r2 := match deductions with
        | some d => { r1 with
            dedAdditional := some d
            dedTotal := ex.dedStandard + ex.dedAbsent + ex.dedHalf + d
            netSalary := ex.grossSalary - (ex.dedStandard + ex.dedAbsent + ex.dedHalf + d) + ex.bonus }
        | none => r1
      let r3 := match status with
        | some st =>
            if st == "paid" then { r2 with status := st, paidAt := some now, paidBy := some actor }
            else { r2 with status := st }
        | none => r2
      let r4 := match remarks with
        | some rm => { r3 with remarks := some rm }
        | none => r3
      let r5 := { r4 with updatedAt := some now, updatedBy := some actor }
      .ok { s with payroll := replacePayroll s.payroll pid r5 }

/-- Balance response entry of get_leave_balance (main.py 1593-1601). -/
structure BalanceEntry where
  leaveType : String
  code : String
  totalDays : ℤ
  usedDays : ℤ
  pendingDays : ℤ
  availableDays : ℤ
  isPaid : Bool
deriving DecidableEq

def sumDays (l : List LeaveRequest) : ℤ := (l.map (fun lr => lr.days)).sum

/-- Python `year or datetime.now().year` (main.py 1552): 0 is falsy. -/
def targetYear (year : Option ℤ) (nowYear : ℤ) : ℤ :=
  match year with
  | some y => if y = 0 then nowYear else y
  | none => nowYear

def yearStartD (y : ℤ) : Date := ⟨y, 1, 1⟩

def yearEndD (y : ℤ) : Date := ⟨y, 12, 31⟩

/-- The in-year startDate filter (main.py 1563-1569): year start and end
bounds are both inclusive. -/
def inYearB (y : ℤ) (d : Date) : Bool := (yearStartD y).leb d && d.leb (yearEndD y)

/-- get_leave_balance (main.py 1544-1618): per active leave type, the sum
of approved in-year days, the sum of pending in-year days, and the
remaining availability clamped at zero. -/
def get_leave_balance (eid : String) (year : Option ℤ) (nowYear : ℤ) (s : Store) :
    Except ApiError (List BalanceEntry) :=
  match s.employees.find? (fun e => e.employeeId == eid) with
  | none => .error ⟨404, "Employee not found"⟩
  | some _ =>
    let ty := targetYear year nowYear
    let approved := s.leaverequests.filter
      (fun lr => lr.employeeId == eid && lr.status == "approved" && inYearB ty lr.startDate)
    let types := s.leavetypes.filter (fun lt => lt.isActive)
    .ok (types.map (fun lt =>
      let used := sumDays (approved.filter (fun lr => lr.leaveType == lt.name))
      let pending := sumDays (s.leaverequests.filter
        (fun lr => lr.employeeId == eid && lr.leaveType == lt.name &&
          lr.status == "pending" && inYearB ty lr.startDate))
      { leaveType := lt.name
        code := lt.code
        totalDays := lt.totalDays
        usedDays := used
        pendingDays := pending
        availableDays := max 0 (lt.totalDays - used)
        isPaid := lt.isPaid }))

/-- db.leavetypes.delete_one by id. -/
def removeLeaveType : List LeaveType → ℕ → List LeaveType
  | [], _ => []
  | t :: ts, i => if t.ltid == i then ts else t :: removeLeaveType ts i

/-- delete_leave_type (main.py 1399-1428): refuse deletion while any
leave request references the type by name. -/
def delete_leave_type (i : ℕ) (s : Store) : Except ApiError Store :=
  match s.leavetypes.find? (fun t => t.ltid == i) with
  | none => .error ⟨404, "Leave type not found"⟩
  | some lt =>
    if s.leaverequests.any (fun lr => lr.leaveType == lt.name) then
      .error ⟨400, "Cannot delete a leave type that is used in existing leave requests"⟩
    else
      .ok { s with leavetypes := removeLeaveType s.leavetypes i }

/-- The empty store. -/
def emptyStore : Store := ⟨[], [], [], [], [], 0⟩

/-- Result extractor used to name concrete outcomes in closed statements. -/
def genOk (x : Except ApiError (GenResult × Store)) : GenResult × Store :=
  match x with
  | .ok a => a
  | .error _ => (⟨0, 0, []⟩, emptyStore)

/-- Result extractor for store-valued operations. -/
def updOk (x : Except ApiError Store) : Store :=
  match x with
  | .ok a => a
  | .error _ => emptyStore

/-- Default payroll record, used only to extract concrete results. -/
def defaultPayroll : PayrollRecord :=
  ⟨0, "", "", "", "", 0, 0, 0, 0, 0, 0, 0, 0, none, 0, 0, 0, 0, 0, 0, 0, 0,
   "", "", 0, none, none, none, none, none⟩

/-- Result extractor for balance lists. -/
def balOk (x : Except ApiError (List BalanceEntry)) : List BalanceEntry :=
  match x with
  | .ok a => a
  | .error _ => []

/- Concrete fixtures for counterexamples and witnesses. -/

/-- Employee with a negative stored salary, used to refute C4. -/
def empC4neg : Employee := ⟨"E2", "Bo", "Roe", "Engineering", "Dev", "active", Val.num (-30)⟩

/-- Store for the C4 counterexample: one absent day in the period. -/
def storeC4neg : Store :=
  ⟨[empC4neg], [⟨"E2", ⟨2024, 1, 3⟩, "absent", Val.vnone⟩], [], [], [], 0⟩

/-- Employee with basic salary 3000 for the C4 witness. -/
def empC4w : Employee := ⟨"E1", "Al", "Doe", "Engineering", "Dev", "active", Val.num 3000⟩

/-- Attendance with 2 absent days and 1 half-day in January 2024. -/
def attC4w : List AttendanceRecord :=
  [⟨"E1", ⟨2024, 1, 3⟩, "absent", Val.vnone⟩,
   ⟨"E1", ⟨2024, 1, 4⟩, "absent", Val.vnone⟩,
   ⟨"E1", ⟨2024, 1, 5⟩, "half-day", Val.num 3⟩]

/-- The payroll record computed for empC4w over attC4w. -/
def recC4w : PayrollRecord := (computeEmp 1 2024 "HR1" 0 attC4w empC4w 0).getD defaultPayroll

/-- Ordinary active employee with a plain numeric salary. -/
def empC1 : Employee := ⟨"E1", "Al", "Doe", "Engineering", "Dev", "active", Val.num 3000⟩

/-- Store for the C1 scenario: one eligible employee, no attendance. -/
def storeC1 : Store := ⟨[empC1], [], [], [], [], 0⟩

/-- Store after generating payroll for January 2024 on storeC1. -/
def storeC1gen : Store := (genOk (generate_payroll 1 2024 none "HR1" 0 storeC1)).2

/-- The freshly generated record of storeC1gen. -/
def recC1 : PayrollRecord := (findPayroll storeC1gen 0).getD defaultPayroll

/-- Store after additionally applying a bonus update of 0.123 (a value
with three decimal places). -/
def storeC1upd : Store :=
  updOk (update_payroll 0 (some (123 / 1000)) none none none "HR1" 7 storeC1gen)

/-- Existing payroll record used in the update scenarios: gross 5000,
standard 100, absent 50, half-day 25, total 175, net 4825, bonus 0. -/
def recC9 : PayrollRecord :=
  ⟨0, "E1", "Al Doe", "Engineering", "Dev", 1, 2024, 5000, 0, 5000, 100, 50, 25, none, 175,
   4825, 20, 17, 1, 2, 160, 0, "generated", "HR1", 0, none, none, none, none, none⟩

/-- Store holding just recC9. -/
def storeC9 : Store := ⟨[], [], [recC9], [], [], 1⟩

/-- storeC9 after a bonus-only update of 200. -/
def storeC9b : Store := updOk (update_payroll 0 (some 200) none none none "HR1" 1 storeC9)

/-- storeC9b after an additional-deductions update of 75. -/
def storeC9bd : Store := updOk (update_payroll 0 none (some 75) none none "HR1" 2 storeC9b)

/-- storeC9 after an additional-deductions update of 75. -/
def storeC9d : Store := updOk (update_payroll 0 none (some 75) none none "HR1" 1 storeC9)

/-- storeC9d after a bonus-only update of 200. -/
def storeC9db : Store := updOk (update_payroll 0 (some 200) none none none "HR1" 2 storeC9d)

/-- Specification-side aggregate: total `days` of this employee's leave
requests of the given type and status whose start date lies in the target
year. -/
def reqDaysFor (s : Store) (eid ltName st : String) (y : ℤ) : ℤ :=
  sumDays (s.leaverequests.filter
    (fun lr => lr.employeeId == eid && lr.leaveType == ltName &&
      lr.status == st && inYearB y lr.startDate))

/-- Casual Leave type with a 12-day entitlement. -/
def ltC6 : LeaveType := ⟨0, "Casual Leave", "CL", 12, false, 0, true, true⟩

/-- Store for the C6 scenario: one employee with one approved 3-day and
one pending 2-day Casual Leave request in 2024. -/
def storeC6 : Store :=
  ⟨[⟨"E1", "Al", "Doe", "Engineering", "Dev", "active", Val.num 3000⟩], [], [], [ltC6],
   [⟨"E1", "Casual Leave", ⟨2024, 3, 1⟩, ⟨2024, 3, 3⟩, 3, "approved"⟩,
    ⟨"E1", "Casual Leave", ⟨2024, 6, 1⟩, ⟨2024, 6, 2⟩, 2, "pending"⟩], 0⟩

/-- Balance list computed for the C6 scenario. -/
def balC6 : List BalanceEntry := balOk (get_leave_balance "E1" (some 2024) 2024 storeC6)

/-- Store for the C7 scenario: the Casual Leave type is referenced by an
approved leave request. -/
def storeC7 : Store :=
  ⟨[], [], [], [ltC6],
   [⟨"E1", "Casual Leave", ⟨2024, 3, 1⟩, ⟨2024, 3, 3⟩, 3, "approved"⟩], 0⟩

/-- Whether the per-employee computation succeeds; by
computeEmp_isSome_irrel this does not depend on actor, timestamp or
allocated id. -/
def computeOk (m y : ℤ) (att : List AttendanceRecord) (e : Employee) : Bool :=
  (computeEmp m y "" 0 att e 0).isSome

/-- The generation-loop output of generate_payroll on a store, starting
from fresh counters and the store's payroll collection. -/
def genOut (m y : ℤ) (ids : Option (List String)) (actor : String) (now : ℤ) (s : Store) : GenAcc :=
  processEmployees m y actor now s.attendance (s.employees.filter (eligibleB ids))
    ⟨0, 0, [], s.payroll, s.nextPid⟩

/-- Store for the C2 witness: two eligible employees, no payroll yet. -/
def storeC2 : Store :=
  ⟨[⟨"E1", "Al", "Doe", "Engineering", "Dev", "active", Val.num 3000⟩,
    ⟨"E2", "Bo", "Roe", "Accounts", "Clerk", "active", Val.num 2000⟩], [], [], [], [], 0⟩

/-- First generation run on storeC2. -/
def resC2a : GenResult := (genOk (generate_payroll 1 2024 none "HR1" 0 storeC2)).1

/-- Store after the first generation run on storeC2. -/
def storeC2a : Store := (genOk (generate_payroll 1 2024 none "HR1" 0 storeC2)).2

/-- Second generation run, on the store produced by the first. -/
def resC2b : GenResult := (genOk (generate_payroll 1 2024 none "HR1" 5 storeC2a)).1

/-- Store after the second generation run. -/
def storeC2b : Store := (genOk (generate_payroll 1 2024 none "HR1" 5 storeC2a)).2

/-- Store for the C5 scenario: one eligible employee E5. -/
def storeC5 : Store :=
  ⟨[⟨"E5", "Cy", "Poe", "Engineering", "Dev", "active", Val.num 3000⟩], [], [], [], [], 0⟩

/-- Result of generating on storeC5 with no id subset. -/
def resC5 : GenResult := (genOk (generate_payroll 1 2024 none "HR1" 0 storeC5)).1

/-- Store after generating on storeC5 with no id subset. -/
def storeC5gen : Store := (genOk (generate_payroll 1 2024 none "HR1" 0 storeC5)).2

section

/- Batteries marks the arithmetic on ℚ irreducible for elaboration
performance; concrete evaluation of the embedded operations needs it
unfolded. -/
attribute [local semireducible] Rat.mul Rat.add Rat.sub Rat.inv Rat.ofScientific

/- ------------------------------------------------------------------ -/
/- C3: salary resolution                                               -/
/- ------------------------------------------------------------------ -/

/-- C3 counterexample: the claim says resolved basic/allowances/deductions
are always non-negative, but a stored negative numeric salary resolves to
a negative basic salary, and the generator writes it unchanged into the
payroll record. -/
theorem resolveSalary_negative_counterexample :
    resolveSalary (Val.num (-100)) = some (-100, 0, 0) ∧
    ((computeEmp 1 2024 "HR1" 0 []
        ⟨"E1", "Al", "Doe", "Engineering", "Dev", "active", Val.num (-100)⟩ 0).map
      (fun r => r.basicSalary)) = some (-100) ∧
    ((-100 : ℚ) < 0) := by
  refine ⟨by decide, by decide, by norm_num⟩

/-- C3 (amended): salary resolution yields numeric scalars for numeric,
missing/None and structured shapes, with falsy or missing components
resolving to zero and nested component mappings summed; but the scalars
are passed through unclamped (negative stored values stay negative), and
a truthy non-numeric value in a numeric position makes resolution fail,
so that employee is skipped rather than resolved to zero. -/
theorem resolveSalary_shapes :
    (∀ q : ℚ, resolveSalary (Val.num q) = some (q, 0, 0)) ∧
    (resolveSalary Val.vnone = some (0, 0, 0)) ∧
    (resolveSalary (Val.vdict []) = some (0, 0, 0)) ∧
    (∀ b a d : ℚ, resolveSalary (Val.vdict
        [("basicSalary", Val.num b), ("allowances", Val.num a), ("deductions", Val.num d)]) =
      some (b, a, d)) ∧
    (∀ b h t : ℚ, resolveSalary (Val.vdict
        [("basic", Val.num b), ("allowances", Val.vdict [("hra", Val.num h), ("ta", Val.num t)])]) =
      some (b, h + t, 0)) ∧
    (resolveSalary (Val.vdict [("basicSalary", Val.vdict [("filler", Val.num 1)])]) = none) := by
  refine ⟨fun q => rfl, rfl, rfl, fun b a d => ?_, fun b h t => ?_, by decide⟩
  · by_cases hb : b = 0 <;> by_cases ha : a = 0 <;> by_cases hd : d = 0 <;>
      simp [resolveSalary, dictGet, flattenComponent, coerceNum, Val.pyOr, Val.truthy,
        Val.toNum, sumVals, hb, ha, hd]
  · by_cases hb : b = 0 <;> by_cases hht : h + t = 0 <;>
      simp [resolveSalary, dictGet, flattenComponent, coerceNum, Val.pyOr, Val.truthy,
        Val.toNum, sumVals, hb, hht]

/- ------------------------------------------------------------------ -/
/- C4: per-day rate and attendance deductions                          -/
/- ------------------------------------------------------------------ -/

/-- C4 counterexample: the claim says the per-day rate always equals
basic/30, but for a (storable) negative basic the code uses rate 0, so
one absent day yields absentDeduction 0 where the claimed formula gives
round2(1 * (-30/30)) = -1. -/
theorem perDayRate_negative_counterexample :
    ((genOk (generate_payroll 1 2024 none "HR1" 0 storeC4neg)).1.records.map
      (fun r => r.dedAbsent)) = [0] ∧
    round2 ((1 : ℚ) * ((-30 : ℚ) / 30)) = -1 ∧
    ((0 : ℚ) ≠ -1) := by
  refine ⟨by decide, by decide, by norm_num⟩

/-- C4 (amended): for every employee the generation loop processes to a
record, the per-day rate is basic/30 when basic is positive and 0
otherwise (covering both zero and negative basic, with no division by
zero), the stored absence deduction is round2(absent-days times the
rate), and the stored half-day deduction is round2(half-days times half
the rate); in particular basic=3000 with 2 absent days and 1 half-day
yields absentDeduction=200.00 and halfDayDeduction=50.00. -/
theorem attendance_deductions_spec :
    (∀ (m y : ℤ) (actor : String) (now : ℤ) (att : List AttendanceRecord)
        (e : Employee) (pid : ℕ) (r : PayrollRecord),
      computeEmp m y actor now att e pid = some r →
      ∃ b al de, resolveSalary e.salary = some (b, al, de) ∧
        r.basicSalary = b ∧
        r.dedAbsent = round2 ((r.absentDays : ℚ) * (if 0 < b then b / 30 else 0)) ∧
        r.dedHalf = round2 ((r.halfDays : ℚ) * ((if 0 < b then b / 30 else 0) / 2))) ∧
    (((genOk (generate_payroll 1 2024 none "HR1" 0
        ⟨[⟨"E1", "Al", "Doe", "Engineering", "Dev", "active", Val.num 3000⟩],
          [⟨"E1", ⟨2024, 1, 3⟩, "absent", Val.vnone⟩,
           ⟨"E1", ⟨2024, 1, 4⟩, "absent", Val.vnone⟩,
           ⟨"E1", ⟨2024, 1, 5⟩, "half-day", Val.num 3⟩], [], [], [], 0⟩)).1.records.map
      (fun r => (r.dedAbsent, r.dedHalf))) = [(200, 50)]) := by
  constructor
  · intro m y actor now att e pid r h
    cases hres : resolveSalary e.salary with
    | none => simp [computeEmp, hres] at h
    | some v =>
      obtain ⟨b, al, de⟩ := v
      cases hth : totalHoursSum (attInRange m y e.employeeId att) with
      | none => simp [computeEmp, hres, hth] at h
      | some th =>
        simp only [computeEmp, hres, hth, Option.some.injEq] at h
        refine ⟨b, al, de, rfl, ?_, ?_, ?_⟩ <;> simp [← h]
  · decide

/-- C4 witness: the generic deduction clause applied to the concrete
record computed for basic 3000 with 2 absent days and 1 half-day. -/
theorem attendance_deductions_spec_witness :
    computeEmp 1 2024 "HR1" 0 attC4w empC4w 0 = some recC4w ∧
    (∃ b al de, resolveSalary empC4w.salary = some (b, al, de) ∧
      recC4w.basicSalary = b ∧
      recC4w.dedAbsent = round2 ((recC4w.absentDays : ℚ) * (if 0 < b then b / 30 else 0)) ∧
      recC4w.dedHalf = round2 ((recC4w.halfDays : ℚ) * ((if 0 < b then b / 30 else 0) / 2))) :=
  ⟨by decide, attendance_deductions_spec.1 1 2024 "HR1" 0 attC4w empC4w 0 recC4w (by decide)⟩

/- ------------------------------------------------------------------ -/
/- Helper lemmas about payroll lookup and replacement                  -/
/- ------------------------------------------------------------------ -/

theorem findPayroll_pid {s : Store} {pid : ℕ} {ex : PayrollRecord}
    (h : findPayroll s pid = some ex) : ex.pid = pid := by
  have h2 := List.find?_some h
  simpa using h2

theorem replacePayroll_find {l : List PayrollRecord} {pid : ℕ} {r : PayrollRecord}
    (hr : r.pid = pid) (hl : (l.find? (fun p => p.pid == pid)).isSome = true) :
    (replacePayroll l pid r).find? (fun p => p.pid == pid) = some r := by
  induction l with
  | nil => simp at hl
  | cons p ps ih =>
    by_cases hp : (p.pid == pid) = true
    · simp [replacePayroll, hp, hr]
    · have hl2 : (ps.find? (fun q => q.pid == pid)).isSome = true := by
        simpa [List.find?_cons_of_neg, hp] using hl
      simp [replacePayroll, hp, ih hl2]

theorem update_bonus_spec (s : Store) (pid : ℕ) (b : ℚ) (actor : String) (now : ℤ)
    (ex : PayrollRecord) (hex : findPayroll s pid = some ex) :
    ∃ s2, update_payroll pid (some b) none none none actor now s = .ok s2 ∧
      findPayroll s2 pid = some { ex with
        bonus := b
        netSalary := ex.netSalary - ex.bonus + b
        updatedAt := some now
        updatedBy := some actor } := by
  have hup : update_payroll pid (some b) none none none actor now s = .ok
      { s with payroll := replacePayroll s.payroll pid { ex with
          bonus := b
          netSalary := ex.netSalary - ex.bonus + b
          updatedAt := some now
          updatedBy := some actor } } := by
    simp only [update_payroll, hex]
    rfl
  refine ⟨_, hup, replacePayroll_find (by have h2 := findPayroll_pid hex; exact h2) ?_⟩
  have hx : (s.payroll.find? (fun p => p.pid == pid)) = some ex := hex
  simp [hx]

theorem update_ded_spec (s : Store) (pid : ℕ) (d : ℚ) (actor : String) (now : ℤ)
    (ex : PayrollRecord) (hex : findPayroll s pid = some ex) :
    ∃ s2, update_payroll pid none (some d) none none actor now s = .ok s2 ∧
      findPayroll s2 pid = some { ex with
        dedAdditional := some d
        dedTotal := ex.dedStandard + ex.dedAbsent + ex.dedHalf + d
        netSalary := ex.grossSalary - (ex.dedStandard + ex.dedAbsent + ex.dedHalf + d) + ex.bonus
        updatedAt := some now
        updatedBy := some actor } := by
  have hup : update_payroll pid none (some d) none none actor now s = .ok
      { s with payroll := replacePayroll s.payroll pid { ex with
          dedAdditional := some d
          dedTotal := ex.dedStandard + ex.dedAbsent + ex.dedHalf + d
          netSalary := ex.grossSalary - (ex.dedStandard + ex.dedAbsent + ex.dedHalf + d) + ex.bonus
          updatedAt := some now
          updatedBy := some actor } } := by
    simp only [update_payroll, hex]
    rfl
  refine ⟨_, hup, replacePayroll_find (by have h2 := findPayroll_pid hex; exact h2) ?_⟩
  have hx : (s.payroll.find? (fun p => p.pid == pid)) = some ex := hex
  simp [hx]

theorem update_paid_spec (s : Store) (pid : ℕ) (actor : String) (now : ℤ)
    (ex : PayrollRecord) (hex : findPayroll s pid = some ex) :
    ∃ s2, update_payroll pid none none (some "paid") none actor now s = .ok s2 ∧
      findPayroll s2 pid = some { ex with
        status := "paid"
        paidAt := some now
        paidBy := some actor
        updatedAt := some now
        updatedBy := some actor } := by
  have hup : update_payroll pid none none (some "paid") none actor now s = .ok
      { s with payroll := replacePayroll s.payroll pid { ex with
          status := "paid"
          paidAt := some now
          paidBy := some actor
          updatedAt := some now
          updatedBy := some actor } } := by
    simp only [update_payroll, hex]
    rfl
  refine ⟨_, hup, replacePayroll_find (by have h2 := findPayroll_pid hex; exact h2) ?_⟩
  have hx : (s.payroll.find? (fun p => p.pid == pid)) = some ex := hex
  simp [hx]

theorem update_both_spec (s : Store) (pid : ℕ) (b d : ℚ) (actor : String) (now : ℤ)
    (ex : PayrollRecord) (hex : findPayroll s pid = some ex) :
    ∃ s2, update_payroll pid (some b) (some d) none none actor now s = .ok s2 ∧
      findPayroll s2 pid = some { ex with
        bonus := b
        dedAdditional := some d
        dedTotal := ex.dedStandard + ex.dedAbsent + ex.dedHalf + d
        netSalary := ex.grossSalary - (ex.dedStandard + ex.dedAbsent + ex.dedHalf + d) + ex.bonus
        updatedAt := some now
        updatedBy := some actor } := by
  have hup : update_payroll pid (some b) (some d) none none actor now s = .ok
      { s with payroll := replacePayroll s.payroll pid { ex with
          bonus := b
          dedAdditional := some d
          dedTotal := ex.dedStandard + ex.dedAbsent + ex.dedHalf + d
          netSalary := ex.grossSalary - (ex.dedStandard + ex.dedAbsent + ex.dedHalf + d) + ex.bonus
          updatedAt := some now
          updatedBy := some actor } } := by
    simp only [update_payroll, hex]
    rfl
  refine ⟨_, hup, replacePayroll_find (by have h2 := findPayroll_pid hex; exact h2) ?_⟩
  have hx : (s.payroll.find? (fun p => p.pid == pid)) = some ex := hex
  simp [hx]

/- ------------------------------------------------------------------ -/
/- C1: net salary and deduction totals                                 -/
/- ------------------------------------------------------------------ -/

/-- C1 counterexample: after update_payroll stores a bonus of 0.123 on a
freshly generated record, the stored netSalary is 3000.123, while the
claimed identity round(grossSalary - deductions.total + bonus, 2) gives
3000.12 - update_payroll persists the recomputed net without rounding, so
the claimed equation fails on the stored record. -/
theorem payroll_net_rounding_counterexample :
    (findPayroll storeC1upd 0).map (fun r => r.netSalary) = some (3000123 / 1000) ∧
    (findPayroll storeC1upd 0).map (fun r => round2 (r.grossSalary - r.dedTotal + r.bonus)) =
      some (300012 / 100) ∧
    (3000123 / 1000 : ℚ) ≠ 300012 / 100 := by
  refine ⟨by decide, by decide, by norm_num⟩

/-- C1 (amended): freshly generated records have bonus 0, gross = basic +
allowances, and satisfy deductions.total = round2(D) and netSalary =
round2(grossSalary - D) for the explicit unrounded deduction sum
D = standard + absent-days x rate + half-days x rate/2 (with rate =
basic/30 when basic is positive, else 0) - the rounding is applied to
each stored field separately, not to the spec formula
net = round2(gross - total + bonus); update_payroll then persists
unrounded values: a bonus update stores netSalary = previousNet -
previousBonus + newBonus, and an additional-deductions update stores
total = standard + absentDeduction + halfDayDeduction + additional and
netSalary = grossSalary - total + bonus, with no rounding applied. -/
theorem payroll_net_formula :
    (∀ (m y : ℤ) (actor : String) (now : ℤ) (att : List AttendanceRecord)
        (e : Employee) (pid : ℕ) (r : PayrollRecord),
      computeEmp m y actor now att e pid = some r →
      r.bonus = 0 ∧
      ∃ b al de, resolveSalary e.salary = some (b, al, de) ∧
        r.basicSalary = b ∧ r.allowances = al ∧ r.dedStandard = de ∧
        r.grossSalary = b + al ∧
        r.dedAbsent = round2 ((r.absentDays : ℚ) * (if 0 < b then b / 30 else 0)) ∧
        r.dedHalf = round2 ((r.halfDays : ℚ) * ((if 0 < b then b / 30 else 0) / 2)) ∧
        r.dedTotal = round2 (r.dedStandard +
          (r.absentDays : ℚ) * (if 0 < b then b / 30 else 0) +
          (r.halfDays : ℚ) * ((if 0 < b then b / 30 else 0) / 2)) ∧
        r.netSalary = round2 (r.grossSalary - (r.dedStandard +
          (r.absentDays : ℚ) * (if 0 < b then b / 30 else 0) +
          (r.halfDays : ℚ) * ((if 0 < b then b / 30 else 0) / 2)))) ∧
    (∀ (s : Store) (pid : ℕ) (b : ℚ) (actor : String) (now : ℤ) (ex : PayrollRecord),
      findPayroll s pid = some ex →
      ∃ s2, update_payroll pid (some b) none none none actor now s = .ok s2 ∧
        findPayroll s2 pid = some { ex with
          bonus := b
          netSalary := ex.netSalary - ex.bonus + b
          updatedAt := some now
          updatedBy := some actor }) ∧
    (∀ (s : Store) (pid : ℕ) (d : ℚ) (actor : String) (now : ℤ) (ex : PayrollRecord),
      findPayroll s pid = some ex →
      ∃ s2, update_payroll pid none (some d) none none actor now s = .ok s2 ∧
        findPayroll s2 pid = some { ex with
          dedAdditional := some d
          dedTotal := ex.dedStandard + ex.dedAbsent + ex.dedHalf + d
          netSalary := ex.grossSalary - (ex.dedStandard + ex.dedAbsent + ex.dedHalf + d) + ex.bonus
          updatedAt := some now
          updatedBy := some actor }) := by
  refine ⟨?_, ?_, ?_⟩
  · intro m y actor now att e pid r h
    cases hres : resolveSalary e.salary with
    | none => simp [computeEmp, hres] at h
    | some v =>
      obtain ⟨b, al, de⟩ := v
      cases hth : totalHoursSum (attInRange m y e.employeeId att) with
      | none => simp [computeEmp, hres, hth] at h
      | some th =>
        simp only [computeEmp, hres, hth, Option.some.injEq] at h
        refine ⟨by simp [← h], b, al, de, rfl, ?_, ?_, ?_, ?_, ?_, ?_, ?_, ?_⟩ <;>
          simp [← h]
  · exact update_bonus_spec
  · exact update_ded_spec

/-- C1 witness: the bonus-update clause of payroll_net_formula applied to
the concrete generated record of storeC1gen. -/
theorem payroll_net_formula_witness :
    findPayroll storeC1gen 0 = some recC1 ∧
    (∃ s2, update_payroll 0 (some (123 / 1000)) none none none "HR1" 7 storeC1gen = .ok s2 ∧
      findPayroll s2 0 = some { recC1 with
        bonus := 123 / 1000
        netSalary := recC1.netSalary - recC1.bonus + 123 / 1000
        updatedAt := some 7
        updatedBy := some "HR1" }) :=
  ⟨by decide, payroll_net_formula.2.1 storeC1gen 0 (123 / 1000) "HR1" 7 recC1 (by decide)⟩

/- ------------------------------------------------------------------ -/
/- C9: update_payroll single-field semantics and self-consistency      -/
/- ------------------------------------------------------------------ -/

/-- C9: on an existing record, a bonus-only update stores netSalary =
previous net - previous bonus + new bonus; an additional-deductions
update stores total = standard + absentDeduction + halfDayDeduction +
additional and netSalary = grossSalary - total + bonus; setting status
to paid stamps paidBy/paidAt; and because every call re-reads the
persisted record, bonus-then-deductions and deductions-then-bonus as
separate calls agree on the final bonus, total and net. -/
theorem update_payroll_spec :
    (∀ (s : Store) (pid : ℕ) (b : ℚ) (actor : String) (now : ℤ) (ex : PayrollRecord),
      findPayroll s pid = some ex →
      ∃ s2, update_payroll pid (some b) none none none actor now s = .ok s2 ∧
        findPayroll s2 pid = some { ex with
          bonus := b
          netSalary := ex.netSalary - ex.bonus + b
          updatedAt := some now
          updatedBy := some actor }) ∧
    (∀ (s : Store) (pid : ℕ) (d : ℚ) (actor : String) (now : ℤ) (ex : PayrollRecord),
      findPayroll s pid = some ex →
      ∃ s2, update_payroll pid none (some d) none none actor now s = .ok s2 ∧
        findPayroll s2 pid = some { ex with
          dedAdditional := some d
          dedTotal := ex.dedStandard + ex.dedAbsent + ex.dedHalf + d
          netSalary := ex.grossSalary - (ex.dedStandard + ex.dedAbsent + ex.dedHalf + d) + ex.bonus
          updatedAt := some now
          updatedBy := some actor }) ∧
    (∀ (s : Store) (pid : ℕ) (actor : String) (now : ℤ) (ex : PayrollRecord),
      findPayroll s pid = some ex →
      ∃ s2, update_payroll pid none none (some "paid") none actor now s = .ok s2 ∧
        findPayroll s2 pid = some { ex with
          status := "paid"
          paidAt := some now
          paidBy := some actor
          updatedAt := some now
          updatedBy := some actor }) ∧
    (∀ (s : Store) (pid : ℕ) (b d : ℚ) (actor : String) (now1 now2 : ℤ)
        (ex : PayrollRecord) (s1 s2 s1b s2b : Store),
      findPayroll s pid = some ex →
      update_payroll pid (some b) none none none actor now1 s = .ok s1 →
      update_payroll pid none (some d) none none actor now2 s1 = .ok s2 →
      update_payroll pid none (some d) none none actor now1 s = .ok s1b →
      update_payroll pid (some b) none none none actor now2 s1b = .ok s2b →
      ∃ r2 r2b, findPayroll s2 pid = some r2 ∧ findPayroll s2b pid = some r2b ∧
        r2.bonus = b ∧ r2b.bonus = b ∧
        r2.dedTotal = ex.dedStandard + ex.dedAbsent + ex.dedHalf + d ∧
        r2b.dedTotal = r2.dedTotal ∧
        r2.netSalary = ex.grossSalary - (ex.dedStandard + ex.dedAbsent + ex.dedHalf + d) + b ∧
        r2b.netSalary = r2.netSalary) := by
  refine ⟨update_bonus_spec, update_ded_spec, update_paid_spec, ?_⟩
  intro s pid b d actor now1 now2 ex s1 s2 s1b s2b hex h1 h2 h1b h2b
  obtain ⟨t1, ht1, hf1⟩ := update_bonus_spec s pid b actor now1 ex hex
  obtain rfl : s1 = t1 := by
    have := h1.symm.trans ht1
    injection this
  obtain ⟨t2, ht2, hf2⟩ := update_ded_spec s1 pid d actor now2 _ hf1
  obtain rfl : s2 = t2 := by
    have := h2.symm.trans ht2
    injection this
  obtain ⟨t1b, ht1b, hf1b⟩ := update_ded_spec s pid d actor now1 ex hex
  obtain rfl : s1b = t1b := by
    have := h1b.symm.trans ht1b
    injection this
  obtain ⟨t2b, ht2b, hf2b⟩ := update_bonus_spec s1b pid b actor now2 _ hf1b
  obtain rfl : s2b = t2b := by
    have := h2b.symm.trans ht2b
    injection this
  refine ⟨_, _, hf2, hf2b, rfl, rfl, rfl, rfl, rfl, ?_⟩
  show (ex.grossSalary - (ex.dedStandard + ex.dedAbsent + ex.dedHalf + d) + ex.bonus) - ex.bonus + b
      = ex.grossSalary - (ex.dedStandard + ex.dedAbsent + ex.dedHalf + d) + b
  ring

/-- C9 witness: the order-independence clause applied to a concrete
generated record, with bonus 200 and additional deductions 75 in both
orders. -/
theorem update_payroll_spec_witness :
    findPayroll storeC9 0 = some recC9 ∧
    update_payroll 0 (some 200) none none none "HR1" 1 storeC9 = .ok storeC9b ∧
    update_payroll 0 none (some 75) none none "HR1" 2 storeC9b = .ok storeC9bd ∧
    update_payroll 0 none (some 75) none none "HR1" 1 storeC9 = .ok storeC9d ∧
    update_payroll 0 (some 200) none none none "HR1" 2 storeC9d = .ok storeC9db ∧
    (∃ r2 r2b, findPayroll storeC9bd 0 = some r2 ∧ findPayroll storeC9db 0 = some r2b ∧
      r2.bonus = 200 ∧ r2b.bonus = 200 ∧
      r2.dedTotal = recC9.dedStandard + recC9.dedAbsent + recC9.dedHalf + 75 ∧
      r2b.dedTotal = r2.dedTotal ∧
      r2.netSalary = recC9.grossSalary - (recC9.dedStandard + recC9.dedAbsent + recC9.dedHalf + 75) + 200 ∧
      r2b.netSalary = r2.netSalary) :=
  ⟨by decide, rfl, rfl, rfl, rfl,
    update_payroll_spec.2.2.2 storeC9 0 200 75 "HR1" 1 2 recC9 storeC9b storeC9bd storeC9d storeC9db
      (by decide) rfl rfl rfl rfl⟩

/- ------------------------------------------------------------------ -/
/- C10: combined bonus + deductions update                             -/
/- ------------------------------------------------------------------ -/

/-- C10: a single update_payroll call supplying both a bonus and an
additional-deductions amount stores the new bonus in the bonus field,
but the deductions branch overwrites the bonus-based net recomputation
using the record's previous bonus, so the stored netSalary is
grossSalary - new total + previous bonus and the new bonus is not
reflected in it. -/
theorem update_payroll_both_overwrites (s : Store) (pid : ℕ) (b d : ℚ) (actor : String)
    (now : ℤ) (ex : PayrollRecord) (hex : findPayroll s pid = some ex) :
    ∃ s2, update_payroll pid (some b) (some d) none none actor now s = .ok s2 ∧
      findPayroll s2 pid = some { ex with
        bonus := b
        dedAdditional := some d
        dedTotal := ex.dedStandard + ex.dedAbsent + ex.dedHalf + d
        netSalary := ex.grossSalary - (ex.dedStandard + ex.dedAbsent + ex.dedHalf + d) + ex.bonus
        updatedAt := some now
        updatedBy := some actor } :=
  update_both_spec s pid b d actor now ex hex

/-- C10 witness: on the concrete record (previous bonus 0), updating with
bonus 200 and additional deductions 75 in one call stores bonus 200 but a
netSalary computed with the previous bonus 0, so the net does not contain
the 200. -/
theorem update_payroll_both_overwrites_witness :
    findPayroll storeC9 0 = some recC9 ∧
    (∃ s2, update_payroll 0 (some 200) (some 75) none none "HR1" 3 storeC9 = .ok s2 ∧
      findPayroll s2 0 = some { recC9 with
        bonus := 200
        dedAdditional := some 75
        dedTotal := recC9.dedStandard + recC9.dedAbsent + recC9.dedHalf + 75
        netSalary := recC9.grossSalary - (recC9.dedStandard + recC9.dedAbsent + recC9.dedHalf + 75) + recC9.bonus
        updatedAt := some 3
        updatedBy := some "HR1" }) ∧
    recC9.bonus = 0 :=
  ⟨by decide, update_payroll_both_overwrites storeC9 0 200 75 "HR1" 3 recC9 (by decide), by decide⟩

/- ------------------------------------------------------------------ -/
/- C6: leave balance computation                                       -/
/- ------------------------------------------------------------------ -/

/-- C6: for every active leave type the balance reports usedDays as the
in-year approved day total of that type, pendingDays as the in-year
pending day total (reported but never subtracted), and availableDays as
max(0, totalDays - usedDays), hence never negative. -/
theorem leave_balance_spec (s : Store) (eid : String) (yOpt : Option ℤ) (nowY : ℤ)
    (bal : List BalanceEntry) (h : get_leave_balance eid yOpt nowY s = .ok bal) :
    (∀ lt ∈ s.leavetypes, lt.isActive = true →
      ∃ en ∈ bal, en.leaveType = lt.name ∧ en.totalDays = lt.totalDays) ∧
    (∀ en ∈ bal,
      en.usedDays = reqDaysFor s eid en.leaveType "approved" (targetYear yOpt nowY) ∧
      en.pendingDays = reqDaysFor s eid en.leaveType "pending" (targetYear yOpt nowY) ∧
      en.availableDays = max 0 (en.totalDays - en.usedDays) ∧
      0 ≤ en.availableDays) := by
  cases hemp : s.employees.find? (fun e => e.employeeId == eid) with
  | none => simp [get_leave_balance, hemp] at h
  | some emp =>
    simp only [get_leave_balance, hemp, Except.ok.injEq] at h
    subst h
    constructor
    · intro lt hmem hact
      exact ⟨_, List.mem_map_of_mem _ (List.mem_filter.mpr ⟨hmem, by simp [hact]⟩), rfl, rfl⟩
    · intro en hen
      obtain ⟨lt, hlt, rfl⟩ := List.mem_map.mp hen
      refine ⟨?_, rfl, rfl, le_max_left 0 _⟩
      show sumDays _ = reqDaysFor s eid lt.name "approved" (targetYear yOpt nowY)
      unfold reqDaysFor
      rw [List.filter_filter]
      refine congrArg sumDays (List.filter_congr ?_)
      intro x _
      cases hA : x.leaveType == lt.name <;> cases hB : x.employeeId == eid <;>
        cases hC : x.status == "approved" <;> cases hD : inYearB (targetYear yOpt nowY) x.startDate <;>
        rfl

/-- C6 witness: the balance clause applied to the concrete scenario with
a 12-day entitlement, one approved 3-day request and one pending 2-day
request, giving used 3, pending 2, available 9. -/
theorem leave_balance_spec_witness :
    get_leave_balance "E1" (some 2024) 2024 storeC6 = .ok balC6 ∧
    (balC6.map (fun en => (en.usedDays, en.pendingDays, en.availableDays)) = [(3, 2, 9)]) ∧
    (∀ en ∈ balC6,
      en.usedDays = reqDaysFor storeC6 "E1" en.leaveType "approved" (targetYear (some 2024) 2024) ∧
      en.pendingDays = reqDaysFor storeC6 "E1" en.leaveType "pending" (targetYear (some 2024) 2024) ∧
      en.availableDays = max 0 (en.totalDays - en.usedDays) ∧
      0 ≤ en.availableDays) :=
  ⟨rfl, by decide,
   (leave_balance_spec storeC6 "E1" (some 2024) 2024 balC6 rfl).2⟩

/- ------------------------------------------------------------------ -/
/- C7: leave type deletion guard                                       -/
/- ------------------------------------------------------------------ -/

/-- C7: while any leave request references the type's name, deletion is
rejected with an explicit error and nothing changes; deletion succeeds
exactly when no leave request references the name, and then it changes
only the leavetypes collection. -/
theorem delete_leave_type_guard (s : Store) (i : ℕ) (lt : LeaveType)
    (hfind : s.leavetypes.find? (fun t => t.ltid == i) = some lt) :
    ((∃ lr ∈ s.leaverequests, lr.leaveType = lt.name) →
      delete_leave_type i s =
        .error ⟨400, "Cannot delete a leave type that is used in existing leave requests"⟩) ∧
    ((∀ lr ∈ s.leaverequests, lr.leaveType ≠ lt.name) →
      delete_leave_type i s = .ok { s with leavetypes := removeLeaveType s.leavetypes i }) ∧
    (∀ s2, delete_leave_type i s = .ok s2 →
      (∀ lr ∈ s.leaverequests, lr.leaveType ≠ lt.name) ∧
      s2.employees = s.employees ∧ s2.attendance = s.attendance ∧ s2.payroll = s.payroll ∧
      s2.leaverequests = s.leaverequests ∧
      s2.leavetypes = removeLeaveType s.leavetypes i) := by
  have hany : (s.leaverequests.any (fun lr => lr.leaveType == lt.name)) = true ↔
      ∃ lr ∈ s.leaverequests, lr.leaveType = lt.name := by
    simp [List.any_eq_true]
  refine ⟨?_, ?_, ?_⟩
  · intro hex
    simp [delete_leave_type, hfind, hany.mpr hex]
  · intro hnone
    have hfalse : (s.leaverequests.any (fun lr => lr.leaveType == lt.name)) = false := by
      rw [Bool.eq_false_iff]
      intro hc
      obtain ⟨lr, hmem, heq⟩ := hany.mp hc
      exact hnone lr hmem heq
    simp [delete_leave_type, hfind, hfalse]
  · intro s2 hok
    by_cases hc : (s.leaverequests.any (fun lr => lr.leaveType == lt.name)) = true
    · simp [delete_leave_type, hfind, hc] at hok
    · rw [Bool.not_eq_true] at hc
      simp only [delete_leave_type, hfind, hc, Bool.false_eq_true, if_false,
        Except.ok.injEq] at hok
      subst hok
      refine ⟨?_, rfl, rfl, rfl, rfl, rfl⟩
      intro lr hmem heq
      exact absurd (hany.mpr ⟨lr, hmem, heq⟩) (by simp [hc])

/-- C7 witness: the rejection clause applied to the concrete store in
which an approved request references Casual Leave. -/
theorem delete_leave_type_guard_witness :
    storeC7.leavetypes.find? (fun t => t.ltid == 0) = some ltC6 ∧
    delete_leave_type 0 storeC7 =
      .error ⟨400, "Cannot delete a leave type that is used in existing leave requests"⟩ :=
  ⟨by decide,
   (delete_leave_type_guard storeC7 0 ltC6 (by decide)).1
     ⟨⟨"E1", "Casual Leave", ⟨2024, 3, 1⟩, ⟨2024, 3, 3⟩, 3, "approved"⟩, List.Mem.head _, rfl⟩⟩

/- ------------------------------------------------------------------ -/
/- C8: whole-batch error taxonomy of generate_payroll                  -/
/- ------------------------------------------------------------------ -/

/-- C8 counterexample: with a valid month and year and no eligible
employees, generate_payroll reports status 404 with detail No employees
found - the same not-found kind (404) that unknown-identifier errors use,
not a validation error (400); the claim that the empty eligible set is
reported as a kind distinct from not-found errors fails. -/
theorem generate_payroll_empty_not_found_counterexample :
    generate_payroll 5 2024 none "HR1" 0 emptyStore = .error ⟨404, "No employees found"⟩ ∧
    update_payroll 0 none none none none "HR1" 0 emptyStore =
      .error ⟨404, "Payroll record not found"⟩ ∧
    get_leave_balance "E1" (some 2024) 2024 emptyStore = .error ⟨404, "Employee not found"⟩ ∧
    (404 : ℕ) ≠ 400 :=
  ⟨rfl, rfl, rfl, by decide⟩

/-- C8 (amended): an out-of-range month or year is rejected as a
validation error (400, with a descriptive reason) before any write; an
empty eligible employee set also aborts before any write, but is reported
with status 404 (No employees found), the kind used for not-found errors,
not as a validation error. -/
theorem generate_payroll_errors (m y : ℤ) (ids : Option (List String)) (actor : String)
    (now : ℤ) (s : Store) :
    ((m < 1 ∨ 12 < m) → generate_payroll m y ids actor now s = .error ⟨400, "Invalid month"⟩) ∧
    (¬(m < 1 ∨ 12 < m) → (y < 2020 ∨ 2030 < y) →
      generate_payroll m y ids actor now s = .error ⟨400, "Invalid year"⟩) ∧
    (¬(m < 1 ∨ 12 < m) → ¬(y < 2020 ∨ 2030 < y) → s.employees.filter (eligibleB ids) = [] →
      generate_payroll m y ids actor now s = .error ⟨404, "No employees found"⟩) := by
  refine ⟨?_, ?_, ?_⟩
  · intro hm
    simp [generate_payroll, hm]
  · intro hm hy
    simp [generate_payroll, hm, hy]
  · intro hm hy hempty
    simp [generate_payroll, hm, hy, hempty]

/-- C8 witness: the three clauses at concrete inputs - month 0 and year
1999 are rejected as 400 validation errors, and the empty store yields
the 404 empty-eligible-set error. -/
theorem generate_payroll_errors_witness :
    generate_payroll 0 2024 none "HR1" 0 emptyStore = .error ⟨400, "Invalid month"⟩ ∧
    generate_payroll 5 1999 none "HR1" 0 emptyStore = .error ⟨400, "Invalid year"⟩ ∧
    generate_payroll 5 2024 none "HR1" 0 emptyStore = .error ⟨404, "No employees found"⟩ :=
  ⟨(generate_payroll_errors 0 2024 none "HR1" 0 emptyStore).1 (by decide),
   (generate_payroll_errors 5 1999 none "HR1" 0 emptyStore).2.1 (by decide) (by decide),
   (generate_payroll_errors 5 2024 none "HR1" 0 emptyStore).2.2 (by decide) (by decide) rfl⟩

/- ------------------------------------------------------------------ -/
/- Helper lemmas about the generation loop                             -/
/- ------------------------------------------------------------------ -/

theorem computeEmp_isSome_irrel (m y : ℤ) (actor : String) (now : ℤ)
    (att : List AttendanceRecord) (e : Employee) (pid : ℕ) :
    (computeEmp m y actor now att e pid).isSome = computeOk m y att e := by
  cases hres : resolveSalary e.salary with
  | none => simp [computeEmp, computeOk, hres]
  | some v =>
    obtain ⟨b, al, de⟩ := v
    cases hth : totalHoursSum (attInRange m y e.employeeId att) with
    | none => simp [computeEmp, computeOk, hres, hth]
    | some th => simp [computeEmp, computeOk, hres, hth]

theorem computeEmp_keys {m y : ℤ} {actor : String} {now : ℤ}
    {att : List AttendanceRecord} {e : Employee} {pid : ℕ} {r : PayrollRecord}
    (h : computeEmp m y actor now att e pid = some r) :
    r.employeeId = e.employeeId ∧ r.month = m ∧ r.year = y := by
  cases hres : resolveSalary e.salary with
  | none => simp [computeEmp, hres] at h
  | some v =>
    obtain ⟨b, al, de⟩ := v
    cases hth : totalHoursSum (attInRange m y e.employeeId att) with
    | none => simp [computeEmp, hres, hth] at h
    | some th =>
      simp only [computeEmp, hres, hth, Option.some.injEq] at h
      exact ⟨by simp [← h], by simp [← h], by simp [← h]⟩

theorem genStep_db_grows (m y : ℤ) (actor : String) (now : ℤ) (att : List AttendanceRecord)
    (acc : GenAcc) (e : Employee) :
    ∃ t, (genStep m y actor now att acc e).payrollDb = acc.payrollDb ++ t := by
  by_cases hc : coveredb e m y acc.payrollDb = true
  · exact ⟨[], by simp [genStep, hc]⟩
  · cases hcomp : computeEmp m y actor now att e acc.nextPid with
    | none => exact ⟨[], by simp [genStep, hc, hcomp]⟩
    | some r => exact ⟨[r], by simp [genStep, hc, hcomp]⟩

theorem processEmployees_db_grows (m y : ℤ) (actor : String) (now : ℤ)
    (att : List AttendanceRecord) :
    ∀ (es : List Employee) (acc : GenAcc),
    ∃ t, (processEmployees m y actor now att es acc).payrollDb = acc.payrollDb ++ t := by
  intro es
  induction es with
  | nil => exact fun acc => ⟨[], by simp [processEmployees]⟩
  | cons e0 es ih =>
    intro acc
    obtain ⟨t1, ht1⟩ := genStep_db_grows m y actor now att acc e0
    obtain ⟨t2, ht2⟩ := ih (genStep m y actor now att acc e0)
    exact ⟨t1 ++ t2, by simp [processEmployees, ht2, ht1]⟩

theorem coveredb_mono {e : Employee} {m y : ℤ} {db : List PayrollRecord}
    (t : List PayrollRecord) (h : coveredb e m y db = true) :
    coveredb e m y (db ++ t) = true := by
  unfold coveredb at *
  rw [List.find?_append]
  rcases hdb : db.find? (matchesPeriod e.employeeId m y) with _ | x
  · rw [hdb] at h; simp at h
  · simp [Option.or]

theorem coveredb_of_insert {e : Employee} {m y : ℤ} {db : List PayrollRecord}
    {r : PayrollRecord} (hid : r.employeeId = e.employeeId) (hm : r.month = m)
    (hy : r.year = y) :
    coveredb e m y (db ++ [r]) = true := by
  unfold coveredb
  rw [List.find?_append]
  rcases hdb : db.find? (matchesPeriod e.employeeId m y) with _ | x
  · simp [Option.or, List.find?_cons, matchesPeriod, hid, hm, hy]
  · simp [Option.or]

theorem processEmployees_covers (m y : ℤ) (actor : String) (now : ℤ)
    (att : List AttendanceRecord) :
    ∀ (es : List Employee) (acc : GenAcc) (e : Employee), e ∈ es →
    coveredb e m y (processEmployees m y actor now att es acc).payrollDb = true ∨
      computeOk m y att e = false := by
  intro es
  induction es with
  | nil => intro acc e he; cases he
  | cons e0 es ih =>
    intro acc e he
    rcases List.mem_cons.mp he with rfl | hmem
    · by_cases hc : coveredb e m y acc.payrollDb = true
      · left
        obtain ⟨t, ht⟩ := processEmployees_db_grows m y actor now att es
          (genStep m y actor now att acc e)
        obtain ⟨t0, ht0⟩ := genStep_db_grows m y actor now att acc e
        simp only [processEmployees, ht, ht0]
        rw [List.append_assoc]
        exact coveredb_mono _ hc
      · cases hcomp : computeEmp m y actor now att e acc.nextPid with
        | none =>
          right
          have hir := computeEmp_isSome_irrel m y actor now att e acc.nextPid
          rw [hcomp] at hir
          exact hir.symm
        | some r =>
          left
          have hdb : (genStep m y actor now att acc e).payrollDb = acc.payrollDb ++ [r] := by
            simp [genStep, hc, hcomp]
          obtain ⟨t, ht⟩ := processEmployees_db_grows m y actor now att es
            (genStep m y actor now att acc e)
          simp only [processEmployees, ht, hdb]
          obtain ⟨hid, hmm, hyy⟩ := computeEmp_keys hcomp
          exact coveredb_mono _ (coveredb_of_insert hid hmm hyy)
    · simpa only [processEmployees] using ih (genStep m y actor now att acc e0) e hmem

theorem processEmployees_count (m y : ℤ) (actor : String) (now : ℤ)
    (att : List AttendanceRecord) :
    ∀ (es : List Employee) (acc : GenAcc),
    (processEmployees m y actor now att es acc).generated +
        (processEmployees m y actor now att es acc).skipped ≤
      acc.generated + acc.skipped +
        es.countP (fun e =>
          coveredb e m y (processEmployees m y actor now att es acc).payrollDb) := by
  intro es
  induction es with
  | nil => intro acc; simp [processEmployees]
  | cons e0 es ih =>
    intro acc
    have hstep : processEmployees m y actor now att (e0 :: es) acc =
        processEmployees m y actor now att es (genStep m y actor now att acc e0) := rfl
    rw [hstep, List.countP_cons]
    by_cases hc : coveredb e0 m y acc.payrollDb = true
    · have hacc : genStep m y actor now att acc e0 = { acc with skipped := acc.skipped + 1 } := by
        simp [genStep, hc]
      rw [hacc]
      have hcov : coveredb e0 m y
          (processEmployees m y actor now att es { acc with skipped := acc.skipped + 1 }).payrollDb
            = true := by
        obtain ⟨t, ht⟩ := processEmployees_db_grows m y actor now att es
          { acc with skipped := acc.skipped + 1 }
        rw [ht]
        exact coveredb_mono _ hc
      have h2 := ih { acc with skipped := acc.skipped + 1 }
      rw [if_pos hcov]
      dsimp only at h2 ⊢
      omega
    · cases hcomp : computeEmp m y actor now att e0 acc.nextPid with
      | none =>
        have hacc : genStep m y actor now att acc e0 = acc := by
          simp [genStep, hc, hcomp]
        rw [hacc]
        have h2 := ih acc
        by_cases hcov : coveredb e0 m y
            (processEmployees m y actor now att es acc).payrollDb = true
        · rw [if_pos hcov]; omega
        · rw [if_neg hcov]; omega
      | some r =>
        have hacc : genStep m y actor now att acc e0 = { acc with
            generated := acc.generated + 1
            records := acc.records ++ [r]
            payrollDb := acc.payrollDb ++ [r]
            nextPid := acc.nextPid + 1 } := by
          simp [genStep, hc, hcomp]
        rw [hacc]
        have hcov : coveredb e0 m y
            (processEmployees m y actor now att es { acc with
              generated := acc.generated + 1
              records := acc.records ++ [r]
              payrollDb := acc.payrollDb ++ [r]
              nextPid := acc.nextPid + 1 }).payrollDb = true := by
          obtain ⟨t, ht⟩ := processEmployees_db_grows m y actor now att es
            { acc with
              generated := acc.generated + 1
              records := acc.records ++ [r]
              payrollDb := acc.payrollDb ++ [r]
              nextPid := acc.nextPid + 1 }
          rw [ht]
          obtain ⟨hid, hmm, hyy⟩ := computeEmp_keys hcomp
          have hbase : coveredb e0 m y (acc.payrollDb ++ [r]) = true :=
            coveredb_of_insert hid hmm hyy
          exact coveredb_mono _ hbase
        have h2 := ih { acc with
            generated := acc.generated + 1
            records := acc.records ++ [r]
            payrollDb := acc.payrollDb ++ [r]
            nextPid := acc.nextPid + 1 }
        rw [if_pos hcov]
        dsimp only at h2 ⊢
        omega

theorem processEmployees_skip_all (m y : ℤ) (actor : String) (now : ℤ)
    (att : List AttendanceRecord) :
    ∀ (es : List Employee) (g k : ℕ) (rs db : List PayrollRecord) (n : ℕ),
    (∀ e ∈ es, coveredb e m y db = true ∨ computeOk m y att e = false) →
    processEmployees m y actor now att es ⟨g, k, rs, db, n⟩ =
      ⟨g, k + es.countP (fun e => coveredb e m y db), rs, db, n⟩ := by
  intro es
  induction es with
  | nil => intro g k rs db n _; simp [processEmployees]
  | cons e0 es ih =>
    intro g k rs db n hyp
    have hrest : ∀ e ∈ es, coveredb e m y db = true ∨ computeOk m y att e = false :=
      fun e he => hyp e (List.mem_cons_of_mem _ he)
    rw [List.countP_cons]
    by_cases hc : coveredb e0 m y db = true
    · have hacc : genStep m y actor now att ⟨g, k, rs, db, n⟩ e0 =
          ⟨g, k + 1, rs, db, n⟩ := by
        simp [genStep, hc]
      have : processEmployees m y actor now att (e0 :: es) ⟨g, k, rs, db, n⟩ =
          processEmployees m y actor now att es ⟨g, k + 1, rs, db, n⟩ := by
        simp only [processEmployees, hacc]
      rw [this, ih (g := g) (k := k + 1) rs db n hrest]
      simp only [hc, if_pos]
      congr 1
      omega
    · rcases hyp e0 (List.mem_cons_self _ _) with hcov | hok
      · exact absurd hcov hc
      · cases hcomp : computeEmp m y actor now att e0 n with
        | some r =>
          have hir := computeEmp_isSome_irrel m y actor now att e0 n
          rw [hcomp, hok] at hir
          simp at hir
        | none =>
          have hacc : genStep m y actor now att ⟨g, k, rs, db, n⟩ e0 = ⟨g, k, rs, db, n⟩ := by
            simp [genStep, hc, hcomp]
          have : processEmployees m y actor now att (e0 :: es) ⟨g, k, rs, db, n⟩ =
              processEmployees m y actor now att es ⟨g, k, rs, db, n⟩ := by
            simp only [processEmployees, hacc]
          rw [this, ih (g := g) (k := k) rs db n hrest]
          simp [hc]

theorem processEmployees_records (m y : ℤ) (actor : String) (now : ℤ)
    (att : List AttendanceRecord) :
    ∀ (es : List Employee) (acc : GenAcc) (r : PayrollRecord),
    r ∈ (processEmployees m y actor now att es acc).records →
    r ∈ acc.records ∨ ∃ e, e ∈ es ∧ ∃ i, computeEmp m y actor now att e i = some r := by
  intro es
  induction es with
  | nil => intro acc r hr; exact Or.inl hr
  | cons e0 es ih =>
    intro acc r hr
    have hr2 : r ∈ (processEmployees m y actor now att es (genStep m y actor now att acc e0)).records := hr
    rcases ih (genStep m y actor now att acc e0) r hr2 with hin | ⟨e, he, i, hcomp⟩
    · by_cases hc : coveredb e0 m y acc.payrollDb = true
      · rw [show genStep m y actor now att acc e0 = { acc with skipped := acc.skipped + 1 } by
          simp [genStep, hc]] at hin
        exact Or.inl hin
      · cases hcomp : computeEmp m y actor now att e0 acc.nextPid with
        | none =>
          rw [show genStep m y actor now att acc e0 = acc by simp [genStep, hc, hcomp]] at hin
          exact Or.inl hin
        | some r0 =>
          rw [show genStep m y actor now att acc e0 = { acc with
              generated := acc.generated + 1
              records := acc.records ++ [r0]
              payrollDb := acc.payrollDb ++ [r0]
              nextPid := acc.nextPid + 1 } by simp [genStep, hc, hcomp]] at hin
          rcases List.mem_append.mp hin with hin0 | hin1
          · exact Or.inl hin0
          · have hrr : r = r0 := by simpa using hin1
            exact Or.inr ⟨e0, List.mem_cons_self _ _, acc.nextPid, by rw [hcomp, hrr]⟩
    · exact Or.inr ⟨e, List.mem_cons_of_mem _ he, i, hcomp⟩

theorem generate_payroll_ok_inv {m y : ℤ} {ids : Option (List String)} {actor : String}
    {now : ℤ} {s : Store} {res : GenResult} {s2 : Store}
    (h : generate_payroll m y ids actor now s = .ok (res, s2)) :
    res = ⟨(genOut m y ids actor now s).generated, (genOut m y ids actor now s).skipped,
           (genOut m y ids actor now s).records⟩ ∧
    s2 = { s with
      payroll := (genOut m y ids actor now s).payrollDb
      nextPid := (genOut m y ids actor now s).nextPid } := by
  by_cases h1 : m < 1 ∨ 12 < m
  · simp [generate_payroll, h1] at h
  by_cases h2 : y < 2020 ∨ 2030 < y
  · simp [generate_payroll, h1, h2] at h
  by_cases h3 : (s.employees.filter (eligibleB ids)).isEmpty = true
  · simp [generate_payroll, h1, h2, h3] at h
  · rw [Bool.not_eq_true] at h3
    simp only [generate_payroll, h1, h2, h3, if_false, Bool.false_eq_true,
      Except.ok.injEq, Prod.mk.injEq] at h
    exact ⟨h.1.symm, h.2.symm⟩

/- ------------------------------------------------------------------ -/
/- C2: idempotence of payroll generation                               -/
/- ------------------------------------------------------------------ -/

/-- C2: running generate_payroll a second time with the same month, year
and employee-id argument on the store produced by a successful first run
generates nothing, returns no records, leaves the store exactly as the
first run left it (no duplicates, no overwrites), and counts at least
every employee the first run generated or skipped as skipped. -/
theorem generate_payroll_idempotent (m y : ℤ) (ids : Option (List String)) (actor : String)
    (now1 now2 : ℤ) (s : Store) (res1 : GenResult) (s1 : Store) (res2 : GenResult) (s2 : Store)
    (h1 : generate_payroll m y ids actor now1 s = .ok (res1, s1))
    (h2 : generate_payroll m y ids actor now2 s1 = .ok (res2, s2)) :
    res2.generated = 0 ∧ res2.records = [] ∧ s2 = s1 ∧
    res1.generated + res1.skipped ≤ res2.skipped := by
  obtain ⟨hres1, hs1⟩ := generate_payroll_ok_inv h1
  obtain ⟨hres2, hs2⟩ := generate_payroll_ok_inv h2
  subst hres1
  subst hs1
  subst hres2
  subst hs2
  have hcov : ∀ e ∈ s.employees.filter (eligibleB ids),
      coveredb e m y (genOut m y ids actor now1 s).payrollDb = true ∨
        computeOk m y s.attendance e = false := by
    intro e he
    exact processEmployees_covers m y actor now1 s.attendance _ _ e he
  have hout2 : genOut m y ids actor now2
      { s with
        payroll := (genOut m y ids actor now1 s).payrollDb
        nextPid := (genOut m y ids actor now1 s).nextPid } =
      ⟨0, 0 + (s.employees.filter (eligibleB ids)).countP
          (fun e => coveredb e m y (genOut m y ids actor now1 s).payrollDb), [],
        (genOut m y ids actor now1 s).payrollDb, (genOut m y ids actor now1 s).nextPid⟩ :=
    processEmployees_skip_all m y actor now2 s.attendance
      (s.employees.filter (eligibleB ids)) 0 0 []
      (genOut m y ids actor now1 s).payrollDb (genOut m y ids actor now1 s).nextPid hcov
  have hcount : (genOut m y ids actor now1 s).generated + (genOut m y ids actor now1 s).skipped ≤
      0 + 0 + (s.employees.filter (eligibleB ids)).countP
        (fun e => coveredb e m y (genOut m y ids actor now1 s).payrollDb) :=
    processEmployees_count m y actor now1 s.attendance
      (s.employees.filter (eligibleB ids)) ⟨0, 0, [], s.payroll, s.nextPid⟩
  refine ⟨by simp [hout2], by simp [hout2], by simp [hout2], ?_⟩
  simp only [hout2]
  omega

/-- C2 witness: two eligible employees, generated on an empty payroll
collection and then generated again for the same period. -/
theorem generate_payroll_idempotent_witness :
    generate_payroll 1 2024 none "HR1" 0 storeC2 = .ok (resC2a, storeC2a) ∧
    generate_payroll 1 2024 none "HR1" 5 storeC2a = .ok (resC2b, storeC2b) ∧
    (resC2b.generated = 0 ∧ resC2b.records = [] ∧ storeC2b = storeC2a ∧
      resC2a.generated + resC2a.skipped ≤ resC2b.skipped) :=
  ⟨rfl, rfl,
   generate_payroll_idempotent 1 2024 none "HR1" 0 5 storeC2 resC2a storeC2a resC2b storeC2b
     rfl rfl⟩

/- ------------------------------------------------------------------ -/
/- C5: eligibility and the employee-id subset                          -/
/- ------------------------------------------------------------------ -/

/-- C5 counterexample: supplying the explicit empty id subset does not
restrict generation - because `if request.employeeIds:` is false for the
empty list, the filter is dropped and a record is created for employee E5
even though E5 is not in the supplied (empty) subset. -/
theorem subset_restriction_counterexample :
    (genOk (generate_payroll 1 2024 (some []) "HR1" 0 storeC5)).1.generated = 1 ∧
    ((genOk (generate_payroll 1 2024 (some []) "HR1" 0 storeC5)).1.records.map
      (fun r => r.employeeId)) = ["E5"] ∧
    ¬ ("E5" ∈ ([] : List String)) :=
  ⟨by decide, by decide, by decide⟩

/-- C5 (amended): an employee is eligible iff active and outside Human
Resources and - when the supplied id subset is non-empty - listed in it;
a supplied empty subset behaves exactly like no subset.  A successful run
creates records only for eligible employees of the store (stamped with
the requested month and year), and after it every eligible employee whose
data processes without a per-employee error has a record for the period. -/
theorem eligibility_spec :
    (∀ e : Employee, eligibleB (some []) e = eligibleB none e) ∧
    (∀ (l : List String) (e : Employee), l ≠ [] →
      (eligibleB (some l) e = true ↔
        (e.department ≠ "Human Resources" ∧ e.status = "active" ∧ e.employeeId ∈ l))) ∧
    (∀ e : Employee, eligibleB none e = true ↔
      (e.department ≠ "Human Resources" ∧ e.status = "active")) ∧
    (∀ (m y : ℤ) (ids : Option (List String)) (actor : String) (now : ℤ) (s : Store)
        (res : GenResult) (s2 : Store),
      generate_payroll m y ids actor now s = .ok (res, s2) →
      (∀ r ∈ res.records, ∃ e, e ∈ s.employees ∧ eligibleB ids e = true ∧
        r.employeeId = e.employeeId ∧ r.month = m ∧ r.year = y) ∧
      (∀ e ∈ s.employees, eligibleB ids e = true → computeOk m y s.attendance e = true →
        ∃ p ∈ s2.payroll, p.employeeId = e.employeeId ∧ p.month = m ∧ p.year = y)) := by
  refine ⟨fun e => rfl, ?_, ?_, ?_⟩
  · intro l e hl
    simp only [eligibleB, List.contains, Bool.and_eq_true, bne_iff_ne, beq_iff_eq,
      Bool.or_eq_true, List.isEmpty_iff, List.elem_eq_mem, decide_eq_true_eq]
    constructor
    · rintro ⟨⟨hd, hs⟩, hsub⟩
      rcases hsub with hemp | hmem
      · exact absurd hemp hl
      · exact ⟨hd, hs, hmem⟩
    · rintro ⟨hd, hs, hmem⟩
      exact ⟨⟨hd, hs⟩, Or.inr hmem⟩
  · intro e
    simp [eligibleB, Bool.and_eq_true, bne_iff_ne, beq_iff_eq]
  · intro m y ids actor now s res s2 h
    obtain ⟨hres, hs2⟩ := generate_payroll_ok_inv h
    subst hres
    subst hs2
    constructor
    · intro r hr
      have hrec := processEmployees_records m y actor now s.attendance
        (s.employees.filter (eligibleB ids)) ⟨0, 0, [], s.payroll, s.nextPid⟩ r hr
      rcases hrec with hin | ⟨e, he, i, hcomp⟩
      · cases hin
      · have hef := List.mem_filter.mp he
        obtain ⟨hid, hmm, hyy⟩ := computeEmp_keys hcomp
        exact ⟨e, hef.1, hef.2, hid, hmm, hyy⟩
    · intro e he helig hok
      have hcov := processEmployees_covers m y actor now s.attendance
        (s.employees.filter (eligibleB ids)) ⟨0, 0, [], s.payroll, s.nextPid⟩ e
        (List.mem_filter.mpr ⟨he, helig⟩)
      rcases hcov with hcv | hnot
      · obtain ⟨p, hpmem, hp⟩ := List.find?_isSome.mp hcv
        simp only [matchesPeriod, Bool.and_eq_true, beq_iff_eq] at hp
        exact ⟨p, hpmem, hp.1.1, hp.1.2, hp.2⟩
      · rw [hok] at hnot
        simp at hnot

/-- C5 witness: the record-characterization clause applied to the
concrete one-employee store. -/
theorem eligibility_spec_witness :
    generate_payroll 1 2024 none "HR1" 0 storeC5 = .ok (resC5, storeC5gen) ∧
    ((∀ r ∈ resC5.records, ∃ e, e ∈ storeC5.employees ∧ eligibleB none e = true ∧
        r.employeeId = e.employeeId ∧ r.month = 1 ∧ r.year = 2024) ∧
      (∀ e ∈ storeC5.employees, eligibleB none e = true →
        computeOk 1 2024 storeC5.attendance e = true →
        ∃ p ∈ storeC5gen.payroll, p.employeeId = e.employeeId ∧ p.month = 1 ∧ p.year = 2024)) :=
  ⟨rfl, eligibility_spec.2.2.2 1 2024 none "HR1" 0 storeC5 resC5 storeC5gen rfl⟩

end

end HRMS
